import Mathlib

/-!
Shallow embedding of the event-driven demand-shock simulation and
forecast-composition engine (event profiles, window resolution, curve
kernels, what-if composition, point-date fallback, downsampling).

JS numbers are modelled as exact rationals (`ℚ`); the Gaussian spike
kernel, which uses `Math.exp`, is modelled over `ℝ` with `Real.exp`.
UTC calendar dates are modelled as year/month/day triples compared via
their proleptic-Gregorian day number, which is exactly the ordering and
day-difference structure of `Date.UTC` millisecond timestamps for
date-only values.
-/

namespace Technorockers

/-- A UTC calendar date (year, month, day), as produced by `makeUTCDate`
and `toUTCDate` in the source: no time-of-day component. -/
structure CDate where
  y : ℕ
  m : ℕ
  d : ℕ
deriving DecidableEq, Repr

/-- A `{m, d}` month/day pair as used in event-profile windows/centers. -/
structure MonthDay where
  m : ℕ
  d : ℕ
deriving DecidableEq, Repr

/-- A profile window `{start: {m,d}, end: {m,d}}` (source field `end`). -/
structure Window where
  start : MonthDay
  stop : MonthDay
deriving DecidableEq, Repr

/-- The four curve shapes of the catalog. -/
inductive EventKind where
  | spike | dip | ramp | step
deriving DecidableEq, Repr

/-- An entry of `EVENT_PROFILES`. -/
structure EventProfile where
  kind : EventKind
  avgImpact : ℚ
  peakImpact : ℚ
  window : Option Window
  center : Option MonthDay
  widthDays : Option ℚ
deriving DecidableEq, Repr

/-- `context.dealer` carries a numeric dealer id. -/
structure Dealer where
  id : ℕ
deriving DecidableEq, Repr

/-- The `context` argument of `buildEventMultiplier`. -/
structure Context where
  dealer : Option Dealer
deriving DecidableEq, Repr

/-- Cumulative days before month `m` in a non-leap year. -/
def cumDaysBefore : ℕ → ℕ
  | 1 => 0
  | 2 => 31
  | 3 => 59
  | 4 => 90
  | 5 => 120
  | 6 => 151
  | 7 => 181
  | 8 => 212
  | 9 => 243
  | 10 => 273
  | 11 => 304
  | 12 => 334
  | _ => 365

/-- Gregorian leap-year test, as implemented by JS `Date.UTC`. -/
def isLeap (y : ℕ) : Bool :=
  y % 4 == 0 && (y % 100 != 0 || y % 400 == 0)

/-- 1-based day of year of a calendar date. -/
def dayOfYear (c : CDate) : ℕ :=
  cumDaysBefore c.m + (if 2 < c.m ∧ isLeap c.y then 1 else 0) + c.d

/-- Proleptic-Gregorian day number (Rata Die: `0001-01-01` is day 1).
`Date.UTC` timestamps of date-only values are an affine function of this
number, so all date comparisons and day distances in the source are
faithfully mirrored by comparisons and differences of `dayNumber`. -/
def dayNumber (c : CDate) : ℕ :=
  365 * (c.y - 1) + (c.y - 1) / 4 + (c.y - 1) / 400 + dayOfYear c - (c.y - 1) / 100

/-- `makeUTCDate(year, month, day)` from the source:
`new Date(Date.UTC(year, month - 1, day))`.  `Date.UTC` applies the
ECMAScript two-digit-year rule (`MakeFullYear`): a year argument between
`0` and `99` denotes `1900 + year`. -/
def makeUTCDate (year month day : ℕ) : CDate :=
  ⟨if year ≤ 99 then year + 1900 else year, month, day⟩

/-- `resolveWindow` from `buildEventMultiplier`: resolve the profile window
for the year of `date`, re-resolving across a year boundary when
`end < start`. -/
def resolveWindow (profile : EventProfile) (date : CDate) : Option (CDate × CDate) :=
  match profile.window with
  | none => none
  | some w =>
    let year := date.y
    let start := makeUTCDate year w.start.m w.start.d
    let stop := makeUTCDate year w.stop.m w.stop.d
    if dayNumber stop < dayNumber start then
      if dayNumber date ≤ dayNumber stop then
        some (makeUTCDate (year - 1) w.start.m w.start.d, stop)
      else
        some (start, makeUTCDate (year + 1) w.stop.m w.stop.d)
    else
      some (start, stop)

/-- Membership test of a date in a resolved `{start, end}` window:
`start ≤ d ≤ end` (the negation of `date < window.start || date > window.end`). -/
def dateInWindow (se : CDate × CDate) (date : CDate) : Prop :=
  dayNumber se.1 ≤ dayNumber date ∧ dayNumber date ≤ dayNumber se.2

instance (se : CDate × CDate) (date : CDate) : Decidable (dateInWindow se date) := by
  unfold dateInWindow; infer_instance

/-- JS `String.prototype.includes`: substring test. -/
def jsIncludes (haystack needle : String) : Bool :=
  (List.range (haystack.data.length + 1)).any
    (fun i => needle.data.isPrefixOf (haystack.data.drop i))

/-- `resolveCenter` from `buildEventMultiplier`: explicit profile center,
else a deterministic per-dealer anniversary month `(id || 1) % 12 + 1`. -/
def resolveCenter (eventTag : String) (profile : EventProfile) (context : Context)
    (date : CDate) : Option CDate :=
  match profile.center with
  | some c => some (makeUTCDate date.y c.m c.d)
  | none =>
    match context.dealer with
    | some dealer =>
      if jsIncludes eventTag "Dealer Anniversary" then
        some (makeUTCDate date.y (((if dealer.id = 0 then 1 else dealer.id) % 12) + 1) 15)
      else
        none
    | none => none

/-- `sigma = Math.max(3, widthDays / 2.355)` of the spike kernel. -/
def sigmaOf (widthDays : ℚ) : ℚ := max 3 (widthDays / (471 / 200))

/-- Signed day distance `(date - center) / 86400000`. -/
def distDays (date centerDate : CDate) : ℚ :=
  ((dayNumber date : ℤ) - (dayNumber centerDate : ℤ) : ℤ)

/-- The Gaussian spike multiplier
`1 + peakImpact * Math.exp(-0.5 * (dist / sigma) ** 2)`. -/
noncomputable def spikeMult (peakImpact sigma dist : ℚ) : ℝ :=
  1 + (peakImpact : ℝ) * Real.exp (-(1 / 2) * ((dist / sigma : ℚ) : ℝ) ^ 2)

/-- The window-kind (`dip`/`ramp`/`step`) branch of the per-date dispatch in
`buildEventMultiplier`: multiplier `1` with no window or outside the
resolved window, else `1 + impact` with the kind's kernel evaluated at the
clamped normalized window position `t`.  (The `spike` arm is unreachable,
the outer dispatch handles that kind; it yields impact `0` as the source's
`impact` variable would.) -/
def windowMultiplier (profile : EventProfile) (date : CDate) : ℚ :=
  match resolveWindow profile date with
  | none => 1
  | some (start, stop) =>
    if dayNumber date < dayNumber start ∨ dayNumber stop < dayNumber date then 1
    else
      let t : ℚ := min 1 (max 0
        (((dayNumber date : ℚ) - (dayNumber start : ℚ)) /
          ((dayNumber stop : ℚ) - (dayNumber start : ℚ))))
      match profile.kind with
      | EventKind.dip => 1 + profile.peakImpact * (1 - min 1 ((t - 1/2) * (t - 1/2) * 4))
      | EventKind.ramp => 1 + profile.peakImpact * t
      | EventKind.step => 1 + profile.peakImpact
      | EventKind.spike => 1

/-- Per-date multiplier of `buildEventMultiplier` for a known profile. -/
noncomputable def multiplierAt (eventTag : String) (profile : EventProfile)
    (context : Context) (date : CDate) : ℝ :=
  if profile.kind = EventKind.spike then
    match resolveCenter eventTag profile context date with
    | none => 1
    | some centerDate =>
      spikeMult profile.peakImpact (sigmaOf (profile.widthDays.getD 14)) (distDays date centerDate)
  else
    ((windowMultiplier profile date : ℚ) : ℝ)

/-- The static `EVENT_PROFILES` catalog. -/
def EVENT_PROFILES : String → Option EventProfile := fun eventTag =>
  if eventTag = "Monsoon Month (Jun-Sep)" then
    some ⟨EventKind.dip, -(12/100), -(25/100), some ⟨⟨6, 15⟩, ⟨9, 15⟩⟩, none, none⟩
  else if eventTag = "Diwali Festival (Oct-Nov)" then
    some ⟨EventKind.spike, 18/100, 32/100, none, some ⟨10, 25⟩, some 24⟩
  else if eventTag = "Construction Boom (Feb-May)" then
    some ⟨EventKind.ramp, 12/100, 28/100, some ⟨⟨2, 10⟩, ⟨5, 31⟩⟩, none, none⟩
  else if eventTag = "Summer Paint Push (Mar-Apr)" then
    some ⟨EventKind.step, 8/100, 18/100, some ⟨⟨3, 15⟩, ⟨4, 30⟩⟩, none, none⟩
  else if eventTag = "Year-End Promo (Dec)" then
    some ⟨EventKind.step, 7/100, 18/100, some ⟨⟨12, 1⟩, ⟨12, 31⟩⟩, none, none⟩
  else if eventTag = "Winter Slowdown (Jan)" then
    some ⟨EventKind.dip, -(6/100), -(12/100), some ⟨⟨1, 1⟩, ⟨1, 31⟩⟩, none, none⟩
  else if eventTag = "Regional Expo (Sep)" then
    some ⟨EventKind.spike, 5/100, 12/100, none, some ⟨9, 10⟩, some 12⟩
  else if eventTag = "Dealer Anniversary (Variable)" then
    some ⟨EventKind.spike, 4/100, 10/100, none, none, some 10⟩
  else none

/-- `buildEventMultiplier(eventTag, dateLabels, context)`: empty for an
unknown tag or empty date sequence, else one multiplier per date. -/
noncomputable def buildEventMultiplier (eventTag : String) (dateLabels : List CDate)
    (context : Context) : List ℝ :=
  match EVENT_PROFILES eventTag with
  | none => []
  | some profile =>
    if dateLabels = [] then [] else dateLabels.map (multiplierAt eventTag profile context)

/-- A forecast point `{date, forecast, lower, upper}` over number type `α`. -/
structure PointG (α : Type) where
  date : String
  forecast : α
  lower : α
  upper : α
deriving DecidableEq, Repr

/-- `Math.round(value * 10) / 10`: round to one decimal place
(JS `Math.round` is `⌊x + 1/2⌋`). -/
def round1 {α : Type} [LinearOrderedField α] [FloorRing α] (value : α) : α :=
  (⌊value * 10 + 1/2⌋ : ℤ) / 10

/-- The divisor used by the normalized composition policy:
`avgCurve || 1`, where `avgCurve = sum(curve) / Math.max(1, curve.length)`. -/
def normalizedDivisor {α : Type} [LinearOrderedField α] (curve : List α) : α :=
  let avgCurve := curve.sum / max 1 (curve.length : α)
  if avgCurve = 0 then 1 else avgCurve

/-- The normalized composition in `runWhatIf`: divide the curve by its own
mean (guarding a zero mean as `1`), scale each point by
`normalized[index] ?? 1`, round to one decimal, and substitute the
resolved date labels. -/
def composeWhatIfNormalized {α : Type} [LinearOrderedField α] [FloorRing α]
    (dataPoints : List (PointG α)) (dates : List String) (curve : List α) :
    List (PointG α) :=
  let normalized := curve.map (fun value => value / normalizedDivisor curve)
  dataPoints.mapIdx (fun index point =>
    let multiplier := (normalized[index]?).getD 1
    { point with
      date := (dates[index]?).getD point.date
      forecast := round1 (point.forecast * multiplier)
      lower := round1 (point.lower * multiplier)
      upper := round1 (point.upper * multiplier) })

/-- The direct (demo) composition in `runWhatIf`:
`combined = (1 + percent/100) * (eventCurve[index] ?? 1)` applied to
`forecast`, `lower`, `upper`, rounded to one decimal. -/
def composeWhatIfDemo {α : Type} [LinearOrderedField α] [FloorRing α]
    (basePoints : List (PointG α)) (whatIfPercent : α) (baseDates : List String)
    (eventCurve : List α) : List (PointG α) :=
  let multiplier := 1 + whatIfPercent / 100
  basePoints.mapIdx (fun index point =>
    let eventMultiplier := (eventCurve[index]?).getD 1
    let combined := multiplier * eventMultiplier
    { point with
      date := (baseDates[index]?).getD point.date
      forecast := round1 (point.forecast * combined)
      lower := round1 (point.lower * combined)
      upper := round1 (point.upper * combined) })

/-- Inverse of `dayNumber` (civil date from a Rata Die day number), used to
format synthesized daily labels the way `toISOString().slice(0, 10)` does. -/
def civilFromDays (n : ℕ) : ℕ × ℕ × ℕ :=
  let z := n + 305
  let era := z / 146097
  let doe := z % 146097
  let yoe := (doe - doe / 1460 + doe / 36524 - doe / 146096) / 365
  let y := yoe + era * 400
  let doy := doe - (365 * yoe + yoe / 4 - yoe / 100)
  let mp := (5 * doy + 2) / 153
  let d := doy - (153 * mp + 2) / 5 + 1
  let m := if mp < 10 then mp + 3 else mp - 9
  (if m ≤ 2 then y + 1 else y, m, d)

/-- Zero-pad a number to two digits. -/
def pad2 (n : ℕ) : String := if n < 10 then "0" ++ toString n else toString n

/-- Zero-pad a year to four digits. -/
def pad4 (n : ℕ) : String :=
  if n < 10 then "000" ++ toString n
  else if n < 100 then "00" ++ toString n
  else if n < 1000 then "0" ++ toString n
  else toString n

/-- `formatDate`: the `YYYY-MM-DD` label of a day number. -/
def formatDate (n : ℕ) : String :=
  let c := civilFromDays n
  pad4 c.1 ++ "-" ++ pad2 c.2.1 ++ "-" ++ pad2 c.2.2

/-- `buildDailyLabels(count)`: daily labels starting one day after "now"
(`todayNum` is the current UTC date's day number). -/
def buildDailyLabels (todayNum : ℕ) (count : ℕ) : List String :=
  (List.range count).map (fun index => formatDate (todayNum + (index + 1)))

/-- `resolvePointDates(points)`: keep the supplied labels unless they have at
most one distinct non-blank value or contain a blank/absent entry, in which
case synthesize a fresh daily sequence of the same length. -/
def resolvePointDates {α : Type} (todayNum : ℕ) (points : List (PointG α)) : List String :=
  if points.length = 0 then []
  else
    let raw := points.map (fun point => point.date)
    if ((raw.filter (fun value => !(value == ""))).dedup.length ≤ 1)
        ∨ raw.any (fun value => value == "") then
      buildDailyLabels todayNum points.length
    else raw

/-- `downsamplePoints(points, maxPoints)`: unchanged when within budget, else
keep indices divisible by `step = Math.ceil(length / maxPoints)` plus the
last index. -/
def downsamplePoints {α : Type} (points : List α) (maxPoints : ℕ) : List α :=
  if points.length ≤ maxPoints then points
  else
    let step := (points.length + maxPoints - 1) / maxPoints
    (points.enum.filter (fun q => q.1 % step == 0 || q.1 == points.length - 1)).map Prod.snd

end Technorockers

namespace Technorockers

/-! ### Helper lemmas -/

/-- A series already within the point budget is returned unchanged. -/
lemma downsample_of_length_le {α : Type} (s : List α) (N : ℕ) (h : s.length ≤ N) :
    downsamplePoints s N = s := by
  simp [downsamplePoints, h]

lemma dn_jan31_lt_dec1 (Z : ℕ) : dayNumber ⟨Z, 1, 31⟩ < dayNumber ⟨Z, 12, 1⟩ := by
  by_cases h : isLeap Z = true <;>
    simp only [dayNumber, dayOfYear, cumDaysBefore, h] <;> norm_num <;> omega

lemma dn_jan31_lt_dec15 (Z : ℕ) : dayNumber ⟨Z, 1, 31⟩ < dayNumber ⟨Z, 12, 15⟩ := by
  by_cases h : isLeap Z = true <;>
    simp only [dayNumber, dayOfYear, cumDaysBefore, h] <;> norm_num <;> omega

lemma dn_dec1_le_dec15 (Z : ℕ) : dayNumber ⟨Z, 12, 1⟩ ≤ dayNumber ⟨Z, 12, 15⟩ := by
  by_cases h : isLeap Z = true <;>
    simp only [dayNumber, dayOfYear, cumDaysBefore, h] <;> norm_num <;> omega

lemma dn_dec15_le_jan31_next (Y : ℕ) (hY : 1 ≤ Y) :
    dayNumber ⟨Y, 12, 15⟩ ≤ dayNumber ⟨Y + 1, 1, 31⟩ := by
  by_cases h : isLeap Y = true <;>
    simp only [dayNumber, dayOfYear, cumDaysBefore, h] <;> norm_num <;> omega

lemma dn_jan15_le_jan31 (Z : ℕ) : dayNumber ⟨Z, 1, 15⟩ ≤ dayNumber ⟨Z, 1, 31⟩ := by
  simp only [dayNumber, dayOfYear, cumDaysBefore]
  norm_num
  omega

lemma dn_dec1_le_jan15_next (Y : ℕ) (hY : 1 ≤ Y) :
    dayNumber ⟨Y, 12, 1⟩ ≤ dayNumber ⟨Y + 1, 1, 15⟩ := by
  by_cases h : isLeap Y = true <;>
    simp only [dayNumber, dayOfYear, cumDaysBefore, h] <;> norm_num <;> omega

lemma dn_jan31_lt_jun1 (Z : ℕ) : dayNumber ⟨Z, 1, 31⟩ < dayNumber ⟨Z, 6, 1⟩ := by
  by_cases h : isLeap Z = true <;>
    simp only [dayNumber, dayOfYear, cumDaysBefore, h] <;> norm_num <;> omega

lemma dn_jun1_lt_dec1 (Z : ℕ) : dayNumber ⟨Z, 6, 1⟩ < dayNumber ⟨Z, 12, 1⟩ := by
  by_cases h : isLeap Z = true <;>
    simp only [dayNumber, dayOfYear, cumDaysBefore, h] <;> norm_num <;> omega

/-- `makeUTCDate` keeps a full year (`≥ 100`) unchanged. -/
lemma makeUTCDate_of_ge (year month day : ℕ) (h : 100 ≤ year) :
    makeUTCDate year month day = ⟨year, month, day⟩ := by
  simp only [makeUTCDate]
  rw [if_neg (by omega)]

/-- `makeUTCDate` maps a two-digit year `≤ 99` into the 1900s. -/
lemma makeUTCDate_of_le (year month day : ℕ) (h : year ≤ 99) :
    makeUTCDate year month day = ⟨year + 1900, month, day⟩ := by
  simp only [makeUTCDate]
  rw [if_pos h]

/-- For a full year `Z ≥ 100`, `Dec 15 (Z)` lies inside the resolved
`Dec 1 – Jan 31` window `Dec 1 (Z) … Jan 31 (Z+1)`. -/
lemma wrap_inside_dec15 (Z : ℕ) (hZ : 100 ≤ Z) (p : EventProfile)
    (hw : p.window = some ⟨⟨12, 1⟩, ⟨1, 31⟩⟩) :
    ∃ se, resolveWindow p ⟨Z, 12, 15⟩ = some se ∧ dateInWindow se ⟨Z, 12, 15⟩ := by
  have h1 : resolveWindow p ⟨Z, 12, 15⟩ = some (⟨Z, 12, 1⟩, ⟨Z + 1, 1, 31⟩) := by
    simp only [resolveWindow, hw]
    rw [makeUTCDate_of_ge Z 12 1 hZ, makeUTCDate_of_ge Z 1 31 hZ,
      makeUTCDate_of_ge (Z + 1) 1 31 (by omega)]
    rw [if_pos (dn_jan31_lt_dec1 Z), if_neg (not_le.mpr (dn_jan31_lt_dec15 Z))]
  exact ⟨_, h1, dn_dec1_le_dec15 Z, dn_dec15_le_jan31_next Z (by omega)⟩

/-- For a full year `Z ≥ 101`, `Jan 15 (Z)` lies inside the resolved
`Dec 1 – Jan 31` window `Dec 1 (Z-1) … Jan 31 (Z)`. -/
lemma wrap_inside_jan15 (Z : ℕ) (hZ : 101 ≤ Z) (p : EventProfile)
    (hw : p.window = some ⟨⟨12, 1⟩, ⟨1, 31⟩⟩) :
    ∃ se, resolveWindow p ⟨Z, 1, 15⟩ = some se ∧ dateInWindow se ⟨Z, 1, 15⟩ := by
  have h2 : resolveWindow p ⟨Z, 1, 15⟩ = some (⟨Z - 1, 12, 1⟩, ⟨Z, 1, 31⟩) := by
    simp only [resolveWindow, hw]
    rw [makeUTCDate_of_ge Z 12 1 (by omega), makeUTCDate_of_ge Z 1 31 (by omega),
      makeUTCDate_of_ge (Z - 1) 12 1 (by omega)]
    rw [if_pos (dn_jan31_lt_dec1 Z), if_pos (dn_jan15_le_jan31 Z)]
  refine ⟨_, h2, ?_, dn_jan15_le_jan31 Z⟩
  have h := dn_dec1_le_jan15_next (Z - 1) (by omega)
  rwa [Nat.sub_add_cancel (by omega)] at h

/-- For a full year `Z ≥ 100`, `Jun 1 (Z)` lies outside the resolved
`Dec 1 – Jan 31` window. -/
lemma wrap_outside_jun1 (Z : ℕ) (hZ : 100 ≤ Z) (p : EventProfile)
    (hw : p.window = some ⟨⟨12, 1⟩, ⟨1, 31⟩⟩) :
    ∀ se, resolveWindow p ⟨Z, 6, 1⟩ = some se → ¬ dateInWindow se ⟨Z, 6, 1⟩ := by
  have h3 : resolveWindow p ⟨Z, 6, 1⟩ = some (⟨Z, 12, 1⟩, ⟨Z + 1, 1, 31⟩) := by
    simp only [resolveWindow, hw]
    rw [makeUTCDate_of_ge Z 12 1 hZ, makeUTCDate_of_ge Z 1 31 hZ,
      makeUTCDate_of_ge (Z + 1) 1 31 (by omega)]
    rw [if_pos (dn_jan31_lt_dec1 Z), if_neg (not_le.mpr (dn_jan31_lt_jun1 Z))]
  intro se hse
  rw [h3] at hse
  injection hse with h
  subst h
  intro hin
  exact absurd hin.1 (not_le.mpr (dn_jun1_lt_dec1 Z))

/-! ### Claims -/

/-- C8: in the normalized composition policy, a zero mean of the multiplier
curve is guarded and used as divisor `1`; for every curve the divisor is
nonzero, so the normalized multipliers (and the values scaled by them) are
well-defined — never a division by zero (the JS `NaN`/`Infinity` case). -/
theorem normalized_divisor_guard (curve : List ℚ) :
    (curve.sum / max 1 (curve.length : ℚ) = 0 → normalizedDivisor curve = 1) ∧
    normalizedDivisor curve ≠ 0 := by
  constructor
  · intro h; simp [normalizedDivisor, h]
  · by_cases h : curve.sum / max 1 (curve.length : ℚ) = 0 <;>
      simp [normalizedDivisor, h]

/-- Witness for C8 at the zero-mean curve `[2, -2]`. -/
theorem normalized_divisor_guard_witness :
    normalizedDivisor ([2, -2] : List ℚ) = 1 ∧ normalizedDivisor ([2, -2] : List ℚ) ≠ 0 :=
  ⟨(normalized_divisor_guard [2, -2]).1 (by simp), (normalized_divisor_guard [2, -2]).2⟩

/-- C4 counterexample: downsampling is not idempotent as claimed — on a
5-point series with budget 2 the first pass keeps 3 points and the second
pass drops one more. -/
theorem downsample_not_idempotent :
    downsamplePoints (downsamplePoints ([0, 1, 2, 3, 4] : List ℕ) 2) 2 ≠
      downsamplePoints ([0, 1, 2, 3, 4] : List ℕ) 2 := by decide

/-- C4 (amended): downsampling a series whose length is already within the
budget is a no-op, hence a repeated downsample is a no-op whenever the
first application returned at most `N` points. -/
theorem downsample_idempotent_within_budget {α : Type} (s : List α) (N : ℕ) :
    (s.length ≤ N → downsamplePoints s N = s) ∧
    ((downsamplePoints s N).length ≤ N →
      downsamplePoints (downsamplePoints s N) N = downsamplePoints s N) :=
  ⟨fun h => downsample_of_length_le s N h, fun h => downsample_of_length_le _ N h⟩

/-- Witness for C4 on concrete series. -/
theorem downsample_idempotent_within_budget_witness :
    downsamplePoints ([0, 1, 2] : List ℕ) 3 = [0, 1, 2] ∧
    downsamplePoints (downsamplePoints ([0, 1, 2, 3, 4] : List ℕ) 4) 4 =
      downsamplePoints ([0, 1, 2, 3, 4] : List ℕ) 4 :=
  ⟨(downsample_idempotent_within_budget [0, 1, 2] 3).1 (by decide),
   (downsample_idempotent_within_budget [0, 1, 2, 3, 4] 4).2 (by decide)⟩

/-- C3 counterexample: the result can exceed the point budget — a 5-point
series downsampled to budget 2 yields 3 points (`[0, 3, 4]` by index). -/
theorem downsample_exceeds_budget :
    ¬ ((downsamplePoints ([0, 1, 2, 3, 4] : List ℕ) 2).length ≤ 2) := by decide

end Technorockers

namespace Technorockers

/-- C1 counterexample: at `Y = 99` the claim fails on the program.  The
wrapped window start is computed as `Date.UTC(99, 11, 1)`, and `Date.UTC`
remaps the two-digit year `99` to `1999`, so the window resolved for
`Jan 15` of year `Y + 1 = 100` is `{1999-12-01, 0100-01-31}` and the date is
classified *outside*, not inside. -/
theorem resolveWindow_wraparound_cex :
    resolveWindow ⟨EventKind.step, 0, 0, some ⟨⟨12, 1⟩, ⟨1, 31⟩⟩, none, none⟩
        (makeUTCDate (99 + 1) 1 15) = some (⟨1999, 12, 1⟩, ⟨100, 1, 31⟩) ∧
    ¬ dateInWindow (⟨1999, 12, 1⟩, ⟨100, 1, 31⟩) (makeUTCDate (99 + 1) 1 15) := by
  decide

/-- C1 (amended): for every year `Y` except `Y = 99`, resolving a
`{start: Dec 1, end: Jan 31}` window against the canonical dates the engine
builds (`Date.UTC`, which maps two-digit years `0–99` to `1900–1999`)
classifies `Dec 15 (Y)` and `Jan 15 (Y+1)` as inside the resolved window and
`Jun 1 (Y)` as outside.  At `Y = 99` the year-boundary re-resolution
computes the start year `99`, which `Date.UTC` remaps to `1999`, and
`Jan 15` of year `100` is classified outside. -/
theorem resolveWindow_wraparound (Y : ℕ) (hY : Y ≠ 99) (p : EventProfile)
    (hw : p.window = some ⟨⟨12, 1⟩, ⟨1, 31⟩⟩) :
    (∃ se, resolveWindow p (makeUTCDate Y 12 15) = some se ∧
      dateInWindow se (makeUTCDate Y 12 15)) ∧
    (∃ se, resolveWindow p (makeUTCDate (Y + 1) 1 15) = some se ∧
      dateInWindow se (makeUTCDate (Y + 1) 1 15)) ∧
    (∀ se, resolveWindow p (makeUTCDate Y 6 1) = some se →
      ¬ dateInWindow se (makeUTCDate Y 6 1)) := by
  by_cases h99 : Y ≤ 99
  · have h98 : Y ≤ 98 := by omega
    rw [makeUTCDate_of_le Y 12 15 h99, makeUTCDate_of_le (Y + 1) 1 15 (by omega),
      makeUTCDate_of_le Y 6 1 h99]
    exact ⟨wrap_inside_dec15 (Y + 1900) (by omega) p hw,
      wrap_inside_jan15 (Y + 1 + 1900) (by omega) p hw,
      wrap_outside_jun1 (Y + 1900) (by omega) p hw⟩
  · push_neg at h99
    rw [makeUTCDate_of_ge Y 12 15 (by omega), makeUTCDate_of_ge (Y + 1) 1 15 (by omega),
      makeUTCDate_of_ge Y 6 1 (by omega)]
    exact ⟨wrap_inside_dec15 Y (by omega) p hw, wrap_inside_jan15 (Y + 1) (by omega) p hw,
      wrap_outside_jun1 Y (by omega) p hw⟩

/-- Witness for C1 at `Y = 2024`. -/
theorem resolveWindow_wraparound_witness :
    (∃ se, resolveWindow ⟨EventKind.step, 0, 0, some ⟨⟨12, 1⟩, ⟨1, 31⟩⟩, none, none⟩
        (makeUTCDate 2024 12 15) = some se ∧ dateInWindow se (makeUTCDate 2024 12 15)) ∧
    (∃ se, resolveWindow ⟨EventKind.step, 0, 0, some ⟨⟨12, 1⟩, ⟨1, 31⟩⟩, none, none⟩
        (makeUTCDate (2024 + 1) 1 15) = some se ∧
      dateInWindow se (makeUTCDate (2024 + 1) 1 15)) ∧
    (∀ se, resolveWindow ⟨EventKind.step, 0, 0, some ⟨⟨12, 1⟩, ⟨1, 31⟩⟩, none, none⟩
        (makeUTCDate 2024 6 1) = some se → ¬ dateInWindow se (makeUTCDate 2024 6 1)) :=
  resolveWindow_wraparound 2024 (by decide) _ rfl

/-- C6: for a window-bound profile (`dip`/`ramp`/`step`) and a date strictly
outside the resolved window, the curve builder's multiplier at that date is
exactly `1`. -/
theorem multiplier_one_outside_window (eventTag : String) (p : EventProfile)
    (ctx : Context) (date : CDate)
    (hkind : p.kind = EventKind.dip ∨ p.kind = EventKind.ramp ∨ p.kind = EventKind.step)
    (se : CDate × CDate) (hres : resolveWindow p date = some se)
    (hout : dayNumber date < dayNumber se.1 ∨ dayNumber se.2 < dayNumber date) :
    multiplierAt eventTag p ctx date = 1 := by
  have hns : p.kind ≠ EventKind.spike := by
    rcases hkind with h | h | h <;> simp [h]
  obtain ⟨s, e⟩ := se
  rw [multiplierAt, if_neg hns]
  simp only [windowMultiplier, hres]
  rw [if_pos hout]
  exact Rat.cast_one

/-- Witness for C6: the Monsoon dip profile on `2024-01-01`. -/
theorem multiplier_one_outside_window_witness :
    multiplierAt "Monsoon Month (Jun-Sep)"
      ⟨EventKind.dip, -(12/100), -(25/100), some ⟨⟨6, 15⟩, ⟨9, 15⟩⟩, none, none⟩
      ⟨none⟩ ⟨2024, 1, 1⟩ = 1 :=
  multiplier_one_outside_window _ _ _ _ (Or.inl rfl)
    (⟨2024, 6, 15⟩, ⟨2024, 9, 15⟩) (by decide) (by decide)

/-- C7: the spike multiplier with width `sigma = max(3, widthDays / 2.355)`
is symmetric in the signed day distance from the center, strictly decreasing
in `|distDays|`, and therefore maximal exactly at the center date. -/
theorem spike_kernel_shape (peak w : ℚ) (hpeak : 0 < peak) :
    (∀ dist : ℚ, spikeMult peak (sigmaOf w) (-dist) = spikeMult peak (sigmaOf w) dist) ∧
    (∀ d1 d2 : ℚ, |d1| < |d2| →
      spikeMult peak (sigmaOf w) d2 < spikeMult peak (sigmaOf w) d1) ∧
    (∀ dist : ℚ, dist ≠ 0 → spikeMult peak (sigmaOf w) dist < spikeMult peak (sigmaOf w) 0) ∧
    sigmaOf w = max 3 (w / (471 / 200)) := by
  have hσ : (0 : ℚ) < sigmaOf w := lt_of_lt_of_le (by norm_num) (le_max_left 3 _)
  have hmono : ∀ d1 d2 : ℚ, |d1| < |d2| →
      spikeMult peak (sigmaOf w) d2 < spikeMult peak (sigmaOf w) d1 := by
    intro d1 d2 h
    unfold spikeMult
    have hx : ((d1 / sigmaOf w : ℚ) : ℝ) ^ 2 < ((d2 / sigmaOf w : ℚ) : ℝ) ^ 2 := by
      have h1 : |d1 / sigmaOf w| < |d2 / sigmaOf w| := by
        rw [abs_div, abs_div, abs_of_pos hσ]
        exact (div_lt_div_iff_of_pos_right hσ).mpr h
      have h2 : |((d1 / sigmaOf w : ℚ) : ℝ)| < |((d2 / sigmaOf w : ℚ) : ℝ)| := by
        rw [← Rat.cast_abs, ← Rat.cast_abs]
        exact_mod_cast h1
      obtain ⟨ha, hb⟩ := abs_lt.mp h2
      calc ((d1 / sigmaOf w : ℚ) : ℝ) ^ 2
          < |((d2 / sigmaOf w : ℚ) : ℝ)| ^ 2 := sq_lt_sq' ha hb
        _ = ((d2 / sigmaOf w : ℚ) : ℝ) ^ 2 := sq_abs _
    have hexp : Real.exp (-(1 / 2) * ((d2 / sigmaOf w : ℚ) : ℝ) ^ 2)
        < Real.exp (-(1 / 2) * ((d1 / sigmaOf w : ℚ) : ℝ) ^ 2) :=
      Real.exp_lt_exp.mpr (by linarith)
    have hp : (0 : ℝ) < (peak : ℝ) := Rat.cast_pos.mpr hpeak
    exact add_lt_add_left (mul_lt_mul_of_pos_left hexp hp) 1
  refine ⟨?_, hmono, ?_, rfl⟩
  · intro dist
    unfold spikeMult
    rw [show ((-dist) / sigmaOf w : ℚ) = -(dist / sigmaOf w) by ring]
    rw [Rat.cast_neg, neg_sq]
  · intro dist hdist
    have h0 : |(0 : ℚ)| < |dist| := by
      rw [abs_zero]
      exact abs_pos.mpr hdist
    exact hmono 0 dist h0

/-- Witness for C7 with the Diwali profile's parameters
(`peakImpact = 0.32`, `widthDays = 24`). -/
theorem spike_kernel_shape_witness :
    spikeMult (32/100) (sigmaOf 24) 3 < spikeMult (32/100) (sigmaOf 24) 0 :=
  (spike_kernel_shape (32/100) 24 (by norm_num)).2.2.1 3 (by norm_num)

end Technorockers

namespace Technorockers

/-- Counting multiples of `q` among `0, …, n-1`. -/
lemma countP_range_mod (q : ℕ) :
    ∀ n : ℕ, 1 ≤ n → (List.range n).countP (fun i => i % q == 0) = (n - 1) / q + 1 := by
  intro n hn
  induction n with
  | zero => omega
  | succ m ih =>
    rw [List.range_succ, List.countP_append]
    rcases Nat.eq_zero_or_pos m with hm | hm
    · subst hm
      simp [List.countP_cons, Nat.zero_mod]
    · rw [ih hm]
      have hc : List.countP (fun i => i % q == 0) [m] = if q ∣ m then 1 else 0 := by
        by_cases hd : m % q = 0 <;>
          simp [List.countP_cons, hd, Nat.dvd_iff_mod_eq_zero]
      rw [hc]
      have hs := Nat.succ_div (m - 1) q
      rw [Nat.sub_add_cancel hm] at hs
      by_cases hd : q ∣ m
      · rw [if_pos hd] at hs
        rw [if_pos hd, Nat.add_sub_cancel, hs]
      · rw [if_neg hd] at hs
        rw [Nat.add_zero] at hs
        rw [if_neg hd, Nat.add_sub_cancel, Nat.add_zero, hs]

/-- `countP` of a disjunction is at most the sum of the separate counts. -/
lemma countP_or_le {α : Type} (p r : α → Bool) (l : List α) :
    l.countP (fun a => p a || r a) ≤ l.countP p + l.countP r := by
  induction l with
  | nil => simp
  | cons a t ih =>
    simp only [List.countP_cons]
    by_cases hp : p a <;> by_cases hr : r a <;> simp [hp, hr] <;> omega

/-- Counting over `enum` by a predicate on indices is counting over `range`. -/
lemma countP_enum_fst {α : Type} (P : ℕ → Bool) (l : List α) :
    l.enum.countP (fun x => P x.1) = (List.range l.length).countP P := by
  rw [← List.enum_map_fst l, List.countP_map]
  rfl

/-- The downsampler never returns more than `N + 1` points. -/
lemma downsample_length_le {α : Type} (s : List α) (N : ℕ) (hN : 1 ≤ N) :
    (downsamplePoints s N).length ≤ N + 1 := by
  by_cases h : s.length ≤ N
  · rw [downsample_of_length_le s N h]; omega
  · push_neg at h
    simp only [downsamplePoints, if_neg (not_le.mpr h)]
    rw [List.length_map, ← List.countP_eq_length_filter]
    rw [countP_enum_fst (fun i => i % ((s.length + N - 1) / N) == 0 || i == s.length - 1) s]
    have hq1 : 1 ≤ (s.length + N - 1) / N := by
      rw [Nat.one_le_div_iff (by omega)]; omega
    have hle := countP_or_le (fun i => i % ((s.length + N - 1) / N) == 0)
      (fun i => i == s.length - 1) (List.range s.length)
    have h1 := countP_range_mod ((s.length + N - 1) / N) s.length (by omega)
    have h2 : (List.range s.length).countP (fun i => i == s.length - 1) ≤ 1 := by
      rw [← List.count_eq_countP]
      exact List.nodup_iff_count_le_one.mp (List.nodup_range s.length) _
    have hmul : s.length ≤ N * ((s.length + N - 1) / N) := by
      have hm := Nat.div_add_mod (s.length + N - 1) N
      have hr : (s.length + N - 1) % N < N := Nat.mod_lt _ (by omega)
      generalize hP : N * ((s.length + N - 1) / N) = P at hm ⊢
      omega
    have h3 : (s.length - 1) / ((s.length + N - 1) / N) ≤ N - 1 := by
      have hlt : s.length - 1 < N * ((s.length + N - 1) / N) :=
        lt_of_lt_of_le (by omega) hmul
      have := (Nat.div_lt_iff_lt_mul (by omega : 0 < (s.length + N - 1) / N)).mpr hlt
      omega
    calc (List.range s.length).countP
          (fun i => i % ((s.length + N - 1) / N) == 0 || i == s.length - 1)
        ≤ _ + _ := hle
      _ ≤ ((s.length - 1) / ((s.length + N - 1) / N) + 1) + 1 := by
          rw [h1]; exact Nat.add_le_add_left h2 _
      _ ≤ (N - 1) + 1 + 1 := by
          exact Nat.add_le_add_right (Nat.add_le_add_right h3 1) 1
      _ ≤ N + 1 := by omega

/-- The downsampler returns a subsequence of its input. -/
lemma downsample_sublist {α : Type} (s : List α) (N : ℕ) :
    (downsamplePoints s N).Sublist s := by
  by_cases h : s.length ≤ N
  · rw [downsample_of_length_le s N h]
  · simp only [downsamplePoints, if_neg h]
    have h2 := List.Sublist.map Prod.snd
      (@List.filter_sublist (ℕ × α)
        (fun q => q.1 % ((s.length + N - 1) / N) == 0 || q.1 == s.length - 1) s.enum)
    rwa [List.enum_map_snd] at h2

/-- The downsampler preserves the first point. -/
lemma downsample_head? {α : Type} (s : List α) (N : ℕ) :
    (downsamplePoints s N).head? = s.head? := by
  by_cases h : s.length ≤ N
  · rw [downsample_of_length_le s N h]
  · match s with
    | [] => simp at h
    | a :: t =>
      simp only [downsamplePoints, if_neg h]
      rw [List.enum_cons, List.filter_cons]
      simp [Nat.zero_mod]

/-- The downsampler preserves the last point. -/
lemma downsample_getLast? {α : Type} (s : List α) (N : ℕ) :
    (downsamplePoints s N).getLast? = s.getLast? := by
  by_cases h : s.length ≤ N
  · rw [downsample_of_length_le s N h]
  · rcases List.eq_nil_or_concat s with rfl | ⟨L, b, rfl⟩
    · simp at h
    · rw [List.concat_eq_append] at h ⊢
      simp only [downsamplePoints, if_neg h]
      rw [List.enum_eq_enumFrom, List.enumFrom_append]
      rw [List.filter_append, List.map_append]
      have hsnd : List.filter
          (fun q => q.1 % (((L ++ [b]).length + N - 1) / N) == 0 || q.1 == (L ++ [b]).length - 1)
          (List.enumFrom (0 + L.length) [b]) = [(L.length, b)] := by
        simp [List.enumFrom_cons, List.length_append]
      rw [hsnd]
      simp [List.getLast?_append]

/-- C3 (amended): for every point sequence and budget `N ≥ 1`, the
downsampler returns a subsequence of length at most `N + 1` (not `N`: the
appended last point can exceed the budget) that preserves the first and last
original points, and — beyond the budget — consists exactly of the points at
indices divisible by the stride `⌈length/N⌉` together with the last point. -/
theorem downsample_contract {α : Type} (s : List α) (N : ℕ) (hN : 1 ≤ N) :
    (downsamplePoints s N).Sublist s ∧
    (downsamplePoints s N).length ≤ N + 1 ∧
    (downsamplePoints s N).head? = s.head? ∧
    (downsamplePoints s N).getLast? = s.getLast? ∧
    (N < s.length → downsamplePoints s N =
      (s.enum.filter (fun q =>
        q.1 % ((s.length + N - 1) / N) == 0 || q.1 == s.length - 1)).map Prod.snd) :=
  ⟨downsample_sublist s N, downsample_length_le s N hN, downsample_head? s N,
   downsample_getLast? s N,
   fun h => by simp only [downsamplePoints, if_neg (not_le.mpr h)]⟩

/-- Witness for C3 on a 7-point series with budget 3. -/
theorem downsample_contract_witness :
    (downsamplePoints ([0, 1, 2, 3, 4, 5, 6] : List ℕ) 3).Sublist [0, 1, 2, 3, 4, 5, 6] ∧
    (downsamplePoints ([0, 1, 2, 3, 4, 5, 6] : List ℕ) 3).length ≤ 3 + 1 ∧
    (downsamplePoints ([0, 1, 2, 3, 4, 5, 6] : List ℕ) 3).head? =
      ([0, 1, 2, 3, 4, 5, 6] : List ℕ).head? ∧
    (downsamplePoints ([0, 1, 2, 3, 4, 5, 6] : List ℕ) 3).getLast? =
      ([0, 1, 2, 3, 4, 5, 6] : List ℕ).getLast? ∧
    (3 < ([0, 1, 2, 3, 4, 5, 6] : List ℕ).length →
      downsamplePoints ([0, 1, 2, 3, 4, 5, 6] : List ℕ) 3 =
        (([0, 1, 2, 3, 4, 5, 6] : List ℕ).enum.filter (fun q =>
          q.1 % ((([0, 1, 2, 3, 4, 5, 6] : List ℕ).length + 3 - 1) / 3) == 0 ||
            q.1 == ([0, 1, 2, 3, 4, 5, 6] : List ℕ).length - 1)).map Prod.snd) :=
  downsample_contract [0, 1, 2, 3, 4, 5, 6] 3 (by decide)
end Technorockers

namespace Technorockers

/-- `map` over the forecasts of an index-aware point map whose forecast
coordinate does not depend on the index. -/
lemma mapIdx_forecast {α : Type} (g : ℕ → PointG α → PointG α) (h : PointG α → α)
    (hg : ∀ i pt, (g i pt).forecast = h pt) :
    ∀ pts : List (PointG α),
      (List.mapIdx g pts).map (fun pt => pt.forecast) = pts.map h := by
  intro pts
  induction pts generalizing g with
  | nil => simp
  | cons a t ih =>
    rw [List.mapIdx_cons, List.map_cons, List.map_cons, hg]
    exact congrArg _ (ih (fun i => g (i + 1)) (fun i pt => hg (i + 1) pt))

/-- Rounding an integral real value to one decimal returns it unchanged. -/
lemma round1_hundred : round1 (100 : ℝ) = 100 := by
  unfold round1
  rw [show ((100 : ℝ) * 10 + 1 / 2) = 1000 + 1 / 2 by norm_num]
  rw [show ⌊(1000 : ℝ) + 1 / 2⌋ = 1000 from Int.floor_eq_iff.mpr (by norm_num)]
  norm_num

/-- C5: an unknown event tag is not an error — the curve builder returns the
empty curve, composition falls back to multiplier `1` per point, and the
direct policy with percent shift `+10` yields
`forecast[i] = round1(baseline[i] * 1.10)` for every point. -/
theorem unknownTag_direct_shift (tag : String) (hp : EVENT_PROFILES tag = none)
    (dates : List CDate) (ctx : Context) (pts : List (PointG ℝ)) (labels : List String) :
    buildEventMultiplier tag dates ctx = [] ∧
    (composeWhatIfDemo pts 10 labels (buildEventMultiplier tag dates ctx)).map
        (fun pt => pt.forecast)
      = pts.map (fun pt => round1 (pt.forecast * (11 / 10))) := by
  have hb : buildEventMultiplier tag dates ctx = [] := by
    simp [buildEventMultiplier, hp]
  refine ⟨hb, ?_⟩
  rw [hb]
  unfold composeWhatIfDemo
  refine mapIdx_forecast _ (fun pt => round1 (pt.forecast * (11 / 10))) ?_ pts
  intro i pt
  norm_num

/-- Witness for C5: a tag outside the catalog with a single concrete point. -/
theorem unknownTag_direct_shift_witness :
    buildEventMultiplier "Custom Promo" [⟨2024, 7, 1⟩] ⟨none⟩ = [] ∧
    (composeWhatIfDemo [⟨"2024-07-01", 100, 90, 110⟩] 10 ["2024-07-01"]
        (buildEventMultiplier "Custom Promo" [⟨2024, 7, 1⟩] ⟨none⟩)).map
        (fun pt => pt.forecast)
      = ([⟨"2024-07-01", 100, 90, 110⟩] : List (PointG ℝ)).map
          (fun pt => round1 (pt.forecast * (11 / 10))) :=
  unknownTag_direct_shift "Custom Promo" rfl [⟨2024, 7, 1⟩] ⟨none⟩
    [⟨"2024-07-01", 100, 90, 110⟩] ["2024-07-01"]

end Technorockers

namespace Technorockers

/-- Inside its resolved window a `step` profile multiplies by `1 + peakImpact`. -/
lemma windowMultiplier_step_inside (p : EventProfile) (d : CDate)
    (hkind : p.kind = EventKind.step)
    (se : CDate × CDate) (hse : resolveWindow p d = some se) (hj : dateInWindow se d) :
    windowMultiplier p d = 1 + p.peakImpact := by
  obtain ⟨s, e⟩ := se
  obtain ⟨hj1, hj2⟩ := hj
  simp only [windowMultiplier, hse]
  rw [if_neg (by push_neg; exact ⟨hj1, hj2⟩)]
  simp only [hkind]

/-- C2: with a `step` event of `peakImpact = 0.10` whose window covers every
date of a 5-point horizon, the normalized composition policy (divide the
curve by its own mean, guard a zero mean as `1`, scale, round to one
decimal) leaves a uniform all-`100` baseline unchanged: every output
forecast is `100.0`. -/
theorem normalized_uniform_step (tag : String) (p : EventProfile) (ctx : Context)
    (hkind : p.kind = EventKind.step) (hpeak : p.peakImpact = 1 / 10)
    (dates : List CDate) (hlen : dates.length = 5)
    (hin : ∀ d ∈ dates, ∃ se, resolveWindow p d = some se ∧ dateInWindow se d)
    (pts : List (PointG ℝ)) (hplen : pts.length = 5)
    (hbase : ∀ pt ∈ pts, pt.forecast = 100) (labels : List String) :
    (composeWhatIfNormalized pts labels (dates.map (multiplierAt tag p ctx))).map
        (fun pt => pt.forecast) = List.replicate 5 (100 : ℝ) := by
  have hns : p.kind ≠ EventKind.spike := by simp [hkind]
  have hcurve : dates.map (multiplierAt tag p ctx) = List.replicate 5 ((11 / 10 : ℚ) : ℝ) := by
    rw [List.eq_replicate_iff]
    refine ⟨by rw [List.length_map, hlen], ?_⟩
    intro b hb
    obtain ⟨d, hd, rfl⟩ := List.mem_map.mp hb
    obtain ⟨se, hse, hj⟩ := hin d hd
    rw [multiplierAt, if_neg hns, windowMultiplier_step_inside p d hkind se hse hj, hpeak]
    norm_num
  rw [hcurve]
  have hc0 : ((11 / 10 : ℚ) : ℝ) ≠ 0 := by
    rw [ne_eq, Rat.cast_eq_zero]
    norm_num
  have hdiv : normalizedDivisor (List.replicate 5 ((11 / 10 : ℚ) : ℝ)) = ((11 / 10 : ℚ) : ℝ) := by
    unfold normalizedDivisor
    rw [List.sum_replicate, List.length_replicate, nsmul_eq_mul]
    rw [show (max 1 ((5 : ℕ) : ℝ)) = 5 by norm_num]
    rw [show ((5 : ℕ) : ℝ) * ((11 / 10 : ℚ) : ℝ) / 5 = ((11 / 10 : ℚ) : ℝ) by push_cast; ring]
    rw [if_neg hc0]
  unfold composeWhatIfNormalized
  rw [hdiv]
  have hnorm : (List.replicate 5 ((11 / 10 : ℚ) : ℝ)).map
      (fun value => value / ((11 / 10 : ℚ) : ℝ)) = List.replicate 5 (1 : ℝ) := by
    rw [List.map_replicate, div_self hc0]
  rw [hnorm]
  rw [mapIdx_forecast _ (fun pt => round1 (pt.forecast * 1)) ?hg pts]
  case hg =>
    intro i pt
    have : ((List.replicate 5 (1 : ℝ))[i]?).getD 1 = 1 := by
      rw [List.getElem?_replicate]
      by_cases hi : i < 5 <;> simp [hi]
    rw [this]
  rw [List.eq_replicate_iff]
  refine ⟨by rw [List.length_map, hplen], ?_⟩
  intro b hb
  obtain ⟨pt, hpt, rfl⟩ := List.mem_map.mp hb
  rw [hbase pt hpt, mul_one, round1_hundred]

end Technorockers

namespace Technorockers

/-- Witness for C2: a concrete step profile with `peakImpact = 0.10`, five
April dates inside its Mar 15 – Apr 30 window, and an all-`100` baseline. -/
theorem normalized_uniform_step_witness :
    (composeWhatIfNormalized
        ([⟨"a", 100, 90, 110⟩, ⟨"b", 100, 90, 110⟩, ⟨"c", 100, 90, 110⟩,
          ⟨"d", 100, 90, 110⟩, ⟨"e", 100, 90, 110⟩] : List (PointG ℝ))
        ["a", "b", "c", "d", "e"]
        (([⟨2024, 4, 1⟩, ⟨2024, 4, 2⟩, ⟨2024, 4, 3⟩, ⟨2024, 4, 4⟩, ⟨2024, 4, 5⟩] :
            List CDate).map
          (multiplierAt "Spring Step"
            ⟨EventKind.step, 0, 1 / 10, some ⟨⟨3, 15⟩, ⟨4, 30⟩⟩, none, none⟩ ⟨none⟩))).map
        (fun pt => pt.forecast) = List.replicate 5 (100 : ℝ) :=
  normalized_uniform_step "Spring Step"
    ⟨EventKind.step, 0, 1 / 10, some ⟨⟨3, 15⟩, ⟨4, 30⟩⟩, none, none⟩
    ⟨none⟩ rfl rfl
    [⟨2024, 4, 1⟩, ⟨2024, 4, 2⟩, ⟨2024, 4, 3⟩, ⟨2024, 4, 4⟩, ⟨2024, 4, 5⟩] rfl
    (by
      intro d hd
      simp only [List.mem_cons, List.not_mem_nil, or_false] at hd
      rcases hd with rfl | rfl | rfl | rfl | rfl <;>
        exact ⟨(⟨2024, 3, 15⟩, ⟨2024, 4, 30⟩), by decide, by decide⟩)
    [⟨"a", 100, 90, 110⟩, ⟨"b", 100, 90, 110⟩, ⟨"c", 100, 90, 110⟩,
      ⟨"d", 100, 90, 110⟩, ⟨"e", 100, 90, 110⟩] rfl
    (by
      intro pt hpt
      simp only [List.mem_cons, List.not_mem_nil, or_false] at hpt
      rcases hpt with rfl | rfl | rfl | rfl | rfl <;> rfl)
    ["a", "b", "c", "d", "e"]

end Technorockers

namespace Technorockers

/-- The Gaussian exponent `-0.5 * x²` is nonpositive. -/
lemma neg_half_sq_nonpos (x : ℝ) : -(1 / 2) * x ^ 2 ≤ 0 := by nlinarith [sq_nonneg x]

/-- Scaling `peakImpact` by a factor in `[0, 1]` keeps the multiplier between
`1` and `1 + peakImpact` (in the order matching the sign of the impact). -/
lemma impact_factor_bounds (peak f : ℚ) (hf0 : 0 ≤ f) (hf1 : f ≤ 1) :
    (0 ≤ peak → 1 ≤ 1 + peak * f ∧ 1 + peak * f ≤ 1 + peak) ∧
    (peak < 0 → 1 + peak ≤ 1 + peak * f ∧ 1 + peak * f ≤ 1) := by
  constructor <;> intro h <;> constructor <;> nlinarith

/-- The window-kind multiplier is `1` or `1 + peakImpact * f` with `f ∈ [0, 1]`. -/
lemma windowMultiplier_cases (p : EventProfile) (d : CDate) :
    windowMultiplier p d = 1 ∨
    ∃ f : ℚ, 0 ≤ f ∧ f ≤ 1 ∧ windowMultiplier p d = 1 + p.peakImpact * f := by
  cases hres : resolveWindow p d with
  | none => simp [windowMultiplier, hres]
  | some se =>
    obtain ⟨s, e⟩ := se
    simp only [windowMultiplier, hres]
    by_cases hout : dayNumber d < dayNumber s ∨ dayNumber e < dayNumber d
    · rw [if_pos hout]
      exact Or.inl rfl
    · rw [if_neg hout]
      set t : ℚ := min 1 (max 0
        (((dayNumber d : ℚ) - (dayNumber s : ℚ)) /
          ((dayNumber e : ℚ) - (dayNumber s : ℚ)))) with ht
      have ht0 : 0 ≤ t := le_min (by norm_num) (le_max_left 0 _)
      have ht1 : t ≤ 1 := min_le_left _ _
      cases hk : p.kind with
      | spike => exact Or.inl rfl
      | dip =>
        refine Or.inr ⟨1 - min 1 ((t - 1/2) * (t - 1/2) * 4), ?_, ?_, rfl⟩
        · have := min_le_left (1 : ℚ) ((t - 1/2) * (t - 1/2) * 4)
          linarith
        · have : (0 : ℚ) ≤ min 1 ((t - 1/2) * (t - 1/2) * 4) :=
            le_min (by norm_num) (by nlinarith)
          linarith
      | ramp => exact Or.inr ⟨t, ht0, ht1, rfl⟩
      | step => exact Or.inr ⟨1, by norm_num, by norm_num, by rw [mul_one]⟩

/-- Bounds on the per-date multiplier for any profile: the deviation from `1`
is at most `|peakImpact|`, on the side matching the impact's sign. -/
lemma multiplierAt_bounds (tag : String) (p : EventProfile) (ctx : Context) (d : CDate) :
    (0 ≤ p.peakImpact → 1 ≤ multiplierAt tag p ctx d ∧
      multiplierAt tag p ctx d ≤ 1 + (p.peakImpact : ℝ)) ∧
    (p.peakImpact < 0 → 1 + (p.peakImpact : ℝ) ≤ multiplierAt tag p ctx d ∧
      multiplierAt tag p ctx d ≤ 1) := by
  by_cases hk : p.kind = EventKind.spike
  · cases hc : resolveCenter tag p ctx d with
    | none =>
      simp only [multiplierAt, if_pos hk, hc]
      refine ⟨fun h => ⟨le_refl 1, ?_⟩, fun h => ⟨?_, le_refl 1⟩⟩
      · have hp : (0 : ℝ) ≤ (p.peakImpact : ℝ) := by exact_mod_cast h
        linarith
      · have hp : ((p.peakImpact : ℚ) : ℝ) < 0 := by exact_mod_cast h
        linarith
    | some c =>
      simp only [multiplierAt, if_pos hk, hc]
      unfold spikeMult
      have hE0 : 0 < Real.exp (-(1 / 2) *
          ((distDays d c / sigmaOf (p.widthDays.getD 14) : ℚ) : ℝ) ^ 2) := Real.exp_pos _
      have hE1 : Real.exp (-(1 / 2) *
          ((distDays d c / sigmaOf (p.widthDays.getD 14) : ℚ) : ℝ) ^ 2) ≤ 1 :=
        Real.exp_le_one_iff.mpr (neg_half_sq_nonpos _)
      refine ⟨fun h => ⟨?_, ?_⟩, fun h => ⟨?_, ?_⟩⟩
      · have hp : (0 : ℝ) ≤ (p.peakImpact : ℝ) := by exact_mod_cast h
        nlinarith
      · have hp : (0 : ℝ) ≤ (p.peakImpact : ℝ) := by exact_mod_cast h
        nlinarith
      · have hp : ((p.peakImpact : ℚ) : ℝ) < 0 := by exact_mod_cast h
        nlinarith
      · have hp : ((p.peakImpact : ℚ) : ℝ) < 0 := by exact_mod_cast h
        nlinarith
  · have hmw := windowMultiplier_cases p d
    simp only [multiplierAt, if_neg hk]
    rcases hmw with hmw | ⟨f, hf0, hf1, hmw⟩ <;> rw [hmw]
    · refine ⟨fun h => ⟨?_, ?_⟩, fun h => ⟨?_, ?_⟩⟩
      · norm_num
      · have hp : (0 : ℝ) ≤ (p.peakImpact : ℝ) := by exact_mod_cast h
        push_cast
        linarith
      · have hp : ((p.peakImpact : ℚ) : ℝ) < 0 := by exact_mod_cast h
        push_cast
        linarith
      · norm_num
    · have hb := impact_factor_bounds p.peakImpact f hf0 hf1
      refine ⟨fun h => ⟨?_, ?_⟩, fun h => ⟨?_, ?_⟩⟩
      · have h1 : (((1 : ℚ) : ℝ)) ≤ ((1 + p.peakImpact * f : ℚ) : ℝ) := by
          exact_mod_cast (hb.1 h).1
        push_cast at h1 ⊢
        linarith
      · have h2 : ((1 + p.peakImpact * f : ℚ) : ℝ) ≤ ((1 + p.peakImpact : ℚ) : ℝ) := by
          exact_mod_cast (hb.1 h).2
        push_cast at h2 ⊢
        linarith
      · have h1 : ((1 + p.peakImpact : ℚ) : ℝ) ≤ ((1 + p.peakImpact * f : ℚ) : ℝ) := by
          exact_mod_cast (hb.2 h).1
        push_cast at h1 ⊢
        linarith
      · have h2 : ((1 + p.peakImpact * f : ℚ) : ℝ) ≤ (((1 : ℚ)) : ℝ) := by
          exact_mod_cast (hb.2 h).2
        push_cast at h2 ⊢
        linarith

end Technorockers

namespace Technorockers

/-- C10: every multiplier produced by the curve builder for a catalog profile
deviates from `1` by at most `|peakImpact|`: within `[1, 1 + peakImpact]` for
a nonnegative peak impact and within `[1 + peakImpact, 1]` for a negative
one (each kernel scales `peakImpact` by a factor in `[0, 1]`). -/
theorem catalog_multiplier_bounds (tag : String) (p : EventProfile)
    (hp : EVENT_PROFILES tag = some p) (dates : List CDate) (ctx : Context)
    (m : ℝ) (hm : m ∈ buildEventMultiplier tag dates ctx) :
    (0 ≤ p.peakImpact → 1 ≤ m ∧ m ≤ 1 + (p.peakImpact : ℝ)) ∧
    (p.peakImpact < 0 → 1 + (p.peakImpact : ℝ) ≤ m ∧ m ≤ 1) := by
  simp only [buildEventMultiplier, hp] at hm
  by_cases hd : dates = []
  · rw [if_pos hd] at hm
    exact absurd hm (List.not_mem_nil m)
  · rw [if_neg hd] at hm
    obtain ⟨d, _, rfl⟩ := List.mem_map.mp hm
    exact multiplierAt_bounds tag p ctx d

/-- Witness for C10: the Year-End Promo step profile on `2024-12-15`. -/
theorem catalog_multiplier_bounds_witness :
    1 ≤ multiplierAt "Year-End Promo (Dec)"
        ⟨EventKind.step, 7/100, 18/100, some ⟨⟨12, 1⟩, ⟨12, 31⟩⟩, none, none⟩
        ⟨none⟩ ⟨2024, 12, 15⟩ ∧
      multiplierAt "Year-End Promo (Dec)"
        ⟨EventKind.step, 7/100, 18/100, some ⟨⟨12, 1⟩, ⟨12, 31⟩⟩, none, none⟩
        ⟨none⟩ ⟨2024, 12, 15⟩ ≤ 1 + ((18/100 : ℚ) : ℝ) :=
  (catalog_multiplier_bounds "Year-End Promo (Dec)"
    ⟨EventKind.step, 7/100, 18/100, some ⟨⟨12, 1⟩, ⟨12, 31⟩⟩, none, none⟩ rfl
    [⟨2024, 12, 15⟩] ⟨none⟩
    (multiplierAt "Year-End Promo (Dec)"
      ⟨EventKind.step, 7/100, 18/100, some ⟨⟨12, 1⟩, ⟨12, 31⟩⟩, none, none⟩
      ⟨none⟩ ⟨2024, 12, 15⟩)
    (List.mem_singleton.mpr rfl)).1 (by norm_num)

end Technorockers

namespace Technorockers

/-- The synthesized daily label sequence has the requested length. -/
lemma buildDailyLabels_length (todayNum count : ℕ) :
    (buildDailyLabels todayNum count).length = count := by
  simp [buildDailyLabels]

/-- C9 (amended): the sequence-level date fallback replaces the supplied
labels with a fresh daily sequence starting from tomorrow (UTC) exactly when
the labels have at most one distinct non-blank value or contain at least one
blank/absent entry (not only when they are *entirely* absent, duplicated or
blank); otherwise the original labels are returned unchanged.  Length is
preserved in every case. -/
theorem resolvePointDates_fallback {α : Type} (todayNum : ℕ) (points : List (PointG α)) :
    (resolvePointDates todayNum points).length = points.length ∧
    (points.length ≠ 0 →
      ((((points.map (fun point => point.date)).filter
            (fun value => !(value == ""))).dedup.length ≤ 1 ∨
          (points.map (fun point => point.date)).any (fun value => value == "")) →
        resolvePointDates todayNum points = buildDailyLabels todayNum points.length) ∧
      (¬ ((((points.map (fun point => point.date)).filter
            (fun value => !(value == ""))).dedup.length ≤ 1 ∨
          (points.map (fun point => point.date)).any (fun value => value == ""))) →
        resolvePointDates todayNum points = points.map (fun point => point.date))) := by
  constructor
  · by_cases h0 : points.length = 0
    · simp only [resolvePointDates, if_pos h0]
      simp [h0]
    · simp only [resolvePointDates, if_neg h0]
      by_cases hc : (((points.map (fun point => point.date)).filter
            (fun value => !(value == ""))).dedup.length ≤ 1 ∨
          (points.map (fun point => point.date)).any (fun value => value == ""))
      · rw [if_pos hc, buildDailyLabels_length]
      · rw [if_neg hc, List.length_map]
  · intro h0
    constructor
    · intro hc
      simp only [resolvePointDates, if_neg h0]
      rw [if_pos hc]
    · intro hc
      simp only [resolvePointDates, if_neg h0]
      rw [if_neg hc]

end Technorockers

namespace Technorockers

/-- C9 counterexample: a label sequence that is *not* entirely
absent/duplicated/blank (it holds two distinct non-blank labels) still
triggers the fallback, because a single blank entry suffices. -/
theorem resolvePointDates_fallback_cex :
    (¬ ∃ v : String, ∀ s ∈ (([⟨"2024-01-01", 100, 90, 110⟩, ⟨"", 100, 90, 110⟩,
        ⟨"2024-01-03", 100, 90, 110⟩] : List (PointG ℚ)).map (fun point => point.date)),
        s = v) ∧
    resolvePointDates 738885 ([⟨"2024-01-01", 100, 90, 110⟩, ⟨"", 100, 90, 110⟩,
        ⟨"2024-01-03", 100, 90, 110⟩] : List (PointG ℚ)) ≠
      ([⟨"2024-01-01", 100, 90, 110⟩, ⟨"", 100, 90, 110⟩,
        ⟨"2024-01-03", 100, 90, 110⟩] : List (PointG ℚ)).map (fun point => point.date) := by
  constructor
  · rintro ⟨v, hv⟩
    have h1 := hv "2024-01-01" (by simp)
    have h2 := hv "" (by simp)
    rw [← h1] at h2
    exact absurd h2 (by decide)
  · decide

/-- Witness for C9: distinct non-blank labels are kept; a blank label forces
the synthesized daily sequence. -/
theorem resolvePointDates_fallback_witness :
    (resolvePointDates 738885 ([⟨"a", 1, 1, 1⟩, ⟨"b", 2, 2, 2⟩] : List (PointG ℚ))).length =
      ([⟨"a", 1, 1, 1⟩, ⟨"b", 2, 2, 2⟩] : List (PointG ℚ)).length ∧
    resolvePointDates 738885 ([⟨"a", 1, 1, 1⟩, ⟨"b", 2, 2, 2⟩] : List (PointG ℚ)) =
      ([⟨"a", 1, 1, 1⟩, ⟨"b", 2, 2, 2⟩] : List (PointG ℚ)).map (fun point => point.date) ∧
    resolvePointDates 738885 ([⟨"", 1, 1, 1⟩] : List (PointG ℚ)) =
      buildDailyLabels 738885 ([⟨"", 1, 1, 1⟩] : List (PointG ℚ)).length :=
  ⟨(resolvePointDates_fallback 738885 _).1,
   ((resolvePointDates_fallback 738885 _).2 (by decide)).2 (by decide),
   ((resolvePointDates_fallback 738885 _).2 (by decide)).1 (by decide)⟩

end Technorockers
